import Mathlib

/-!
Verification of the eg-speedrun map-matching pipeline (gpstrack.py).

The Python source is shallowly embedded: pure computations become Lean
functions; external collaborators (the street graph, geometric distance,
the HTTP response, the on-disk cache) appear as explicit parameters or
explicit state threading. Machine-level details are kept: the request
hash works modulo 2^32 via a bitmask, floating-point lengths and
distances are modelled as rationals, and Python exceptions become
Except values.

Layout: all definitions first, then the theorems.
-/

namespace EgSpeedrun

/-! ## Fingerprint hash (gpstrack.py, my_hash, lines 14-17)

Python: h=0; for ch in text: h = (h*281 ^ ord(ch)*997) & 0xffffffff; return str(h).
Python operator precedence makes the body ((h*281) XOR (ord(ch)*997)) & 0xffffffff.
-/

def my_hash (text : String) : String :=
  toString (text.data.foldl (fun h ch => ((h * 281) ^^^ (ch.toNat * 997)) &&& 0xffffffff) 0)

/-- The spec's reference rolling hash: accumulator starts at 0; for each
character c, accumulator becomes (accumulator*281 XOR ord(c)*997) mod 2^32;
the result is rendered as a decimal string. -/
def spec_rolling_hash (text : String) : String :=
  toString (text.data.foldl (fun h ch => ((h * 281) ^^^ (ch.toNat * 997)) % 2 ^ 32) 0)

/-! ## Generic list helper: concatenation of mapped lists -/

def catMap (f : α → List β) : List α → List β
  | [] => []
  | a :: l => f a ++ catMap f l

/-! ## Cache / network step of match_graph (gpstrack.py, lines 145-161)

The request cache is a key-to-text association list. The single network
response is passed in as (status, body). On a cache hit the stored text
is used and nothing changes; on a miss with a non-200 status the function
returns no text (match_graph returns None), the cache is unchanged, and
the track name plus response body are emitted as diagnostics; on a miss
with status 200 the body is stored under the key (write-through) and used.
The function consumes exactly one response: there is no retry.
-/

structure FetchResult where
  text : Option String
  cache : List (String × String)
  diag : Option (String × String)
deriving DecidableEq

def matchGraphFetch (trackName : String) (cache : List (String × String))
    (key : String) (status : Nat) (body : String) : FetchResult :=
  match cache.lookup key with
  | some t => ⟨some t, cache, none⟩
  | none =>
    if status ≠ 200 then ⟨none, cache, some (trackName, body)⟩
    else ⟨some body, cache ++ [(key, body)], none⟩

/-! ## Edge resolver (gpstrack.py, lines 166-208)

A graph edge is identified by its gdf index (u, v, key). For one matched
point, the candidate edges of its way (with their point-to-geometry
distances, modelled as rationals) are sorted by distance; the code then
unconditionally reads row 1 of the sorted frame: with a single candidate
pandas raises IndexError, reproduced here as an error value. With two or
more candidates, both of the first two are emitted when their distances
are equal, otherwise only the first. An empty candidate set drops the
point (the loop continues without error and without counting a match).
pandas sort_values uses an unstable quicksort; any distance-sorted order
is consistent with the source, and a stable insertion sort is used here.
-/

abbrev GEdge := Int × Int × Int

def distLe (a b : GEdge × ℚ) : Prop := a.2 ≤ b.2

instance : DecidableRel distLe := fun a b => inferInstanceAs (Decidable (a.2 ≤ b.2))

instance : IsTotal (GEdge × ℚ) distLe := ⟨fun a b => le_total a.2 b.2⟩

instance : IsTrans (GEdge × ℚ) distLe := ⟨fun _ _ _ h1 h2 => le_trans h1 h2⟩

def resolvePoint (cands : List (GEdge × ℚ)) : Except String (List GEdge) :=
  match List.insertionSort distLe cands with
  | [] => .ok []
  | [_] => .error "IndexError: single positional indexer is out-of-bounds"
  | c0 :: c1 :: _ => .ok (if c1.2 = c0.2 then [c0.1, c1.1] else [c0.1])

/-- One point of the parsed matcher response: its match classification,
its index into the response's edge-description list, and its coordinates. -/
structure RespPoint where
  ptype : String
  edge_index : Nat
  lat : ℚ
  lon : ℚ
deriving DecidableEq

/-- The per-point loop of match_graph (lines 176-206). `numEdges` is the
length of the response's edge list, `wayOf` maps an edge index to its
way_id, and `cands` abstracts the gdf lookup plus geometric distance:
for a way_id and point coordinates it returns the candidate graph edges
with their distances. Returns the emitted edges and the match count, or
the IndexError raised by the single-candidate case. -/
def matchLoop (numEdges : Nat) (wayOf : Nat → Nat)
    (cands : Nat → ℚ → ℚ → List (GEdge × ℚ)) :
    List RespPoint → Except String (List GEdge × Nat)
  | [] => .ok ([], 0)
  | p :: rest =>
    if p.edge_index ≥ numEdges then
      matchLoop numEdges wayOf cands rest
    else
      let c := cands (wayOf p.edge_index) p.lon p.lat
      if c.isEmpty then
        matchLoop numEdges wayOf cands rest
      else
        match resolvePoint c with
        | .error e => .error e
        | .ok emitted =>
          match matchLoop numEdges wayOf cands rest with
          | .error e => .error e
          | .ok (es, mc) => .ok (emitted ++ es, mc + 1)

/-- The response-parsing and resolution stage of match_graph (lines
166-208): filter the response points to the ones classified "matched",
run the per-point loop, then print the match rate — a division by
len(matched_points) which raises ZeroDivisionError when no point is
matched. -/
def matchGraphResolve (numEdges : Nat) (wayOf : Nat → Nat)
    (cands : Nat → ℚ → ℚ → List (GEdge × ℚ))
    (resPoints : List RespPoint) : Except String (List GEdge) :=
  match matchLoop numEdges wayOf cands (resPoints.filter (fun p => p.ptype = "matched")) with
  | .error e => .error e
  | .ok (es, _mc) =>
    if (resPoints.filter (fun p => p.ptype = "matched")).length = 0 then
      .error "ZeroDivisionError: division by zero"
    else .ok es

/-! ## Gap filler (gpstrack.py, fill_gaps, lines 217-304)

The graph's shortest-path query is the parameter `sp` (folding together
networkx NodeNotFound and a None result as `none`), edge lengths are
`eLen`, and membership of a directed edge (u,v,0) in the gdf index is
`hasIdx`. The unknown position is the source's sentinel -1.
-/

def normEdge (e : GEdge) : Int × Int :=
  if e.1 > e.2.1 then (e.2.1, e.1) else (e.1, e.2.1)

def dedupConsecutive : List (Int × Int) → List (Int × Int)
  | [] => []
  | [a] => [a]
  | a :: b :: rest =>
    if a = b then dedupConsecutive (b :: rest) else a :: dedupConsecutive (b :: rest)

def pathEdges (path : List Int) : List (Int × Int) := path.zip path.tail

def pathLength (eLen : Int → Int → ℚ) (path : List Int) : ℚ :=
  ((path.zip path.tail).map (fun p => eLen p.1 p.2)).sum

structure FillState where
  nextNode : Int
  fillers : List (Int × Int)
  lengths : List ℚ
deriving DecidableEq

/-- The source's selection of the shorter candidate path (lines 271-279):
path := u_path when u_length < v_length, else v_path. -/
def selPath (eLen : Int → Int → ℚ) (upath vpath : List Int) : List Int :=
  if pathLength eLen upath < pathLength eLen vpath then upath else vpath

/-- The selected path's length (same condition as selPath). -/
def selLen (eLen : Int → Int → ℚ) (upath vpath : List Int) : ℚ :=
  if pathLength eLen upath < pathLength eLen vpath
  then pathLength eLen upath else pathLength eLen vpath

/-- pot_next_node: the far endpoint of the next edge reached through the
selected path (v_next when the u_path was chosen, u_next otherwise). -/
def selNext (eLen : Int → Int → ℚ) (upath vpath : List Int) (un vn : Int) : Int :=
  if pathLength eLen upath < pathLength eLen vpath then vn else un

/-- One iteration of the gap-filling walk (lines 248-291) on the pair of
consecutive deduplicated undirected edges (e_cur, e_next). -/
def fillStep (sp : Int → Int → Option (List Int)) (eLen : Int → Int → ℚ)
    (thL : ℚ) (thN : Nat) (st : FillState) (pair : (Int × Int) × (Int × Int)) :
    FillState :=
  let uc := pair.1.1
  let vc := pair.1.2
  let un := pair.2.1
  let vn := pair.2.2
  if un = uc ∨ un = vc then ⟨vn, st.fillers, st.lengths⟩
  else if vn = uc ∨ vn = vc then ⟨un, st.fillers, st.lengths⟩
  else
    match sp st.nextNode un, sp st.nextNode vn with
    | some upath, some vpath =>
      if selLen eLen upath vpath < thL ∧ (selPath eLen upath vpath).length < thN then
        ⟨selNext eLen upath vpath un vn,
         st.fillers ++ pathEdges (selPath eLen upath vpath),
         st.lengths ++ (pathEdges (selPath eLen upath vpath)).map
           (fun _ => selLen eLen upath vpath)⟩
      else ⟨-1, st.fillers, st.lengths⟩
    | _, _ => ⟨-1, st.fillers, st.lengths⟩

/-- fill_gaps: normalize each matched edge so the smaller endpoint comes
first, collapse consecutive duplicates, walk consecutive pairs with
fillStep starting from unknown position -1, then re-express each filler
pair against the graph's directed-edge index. The source's default
thresholds are 30 (length, meters) and 6 (node count). -/
def fill_gaps (sp : Int → Int → Option (List Int)) (eLen : Int → Int → ℚ)
    (hasIdx : Int → Int → Bool) (thL : ℚ) (thN : Nat)
    (matched : List GEdge) : List GEdge :=
  let uni := dedupConsecutive (matched.map normEdge)
  let final := (uni.zip uni.tail).foldl (fillStep sp eLen thL thN) ⟨-1, [], []⟩
  catMap (fun p => (if hasIdx p.1 p.2 then [(p.1, p.2, 0)] else []) ++
                   (if hasIdx p.2 p.1 then [(p.2, p.1, 0)] else [])) final.fillers

/-! ## Streak matcher (gpstrack.py, match_graph2, lines 356-431)

Samples are (nearest edge, distance, point) triples, kept after the
max_distance filter. Node coordinates, edge lengths and the great-circle
distance are abstracted into a geometry parameter. The loop appends the
sentinel ((-1,-1,-1), -1, (-1,-1)) to flush the last streak.
-/

structure Sample where
  edge : GEdge
  dist : ℚ
  point : ℚ × ℚ
deriving DecidableEq

def sentinelSample : Sample := ⟨(-1, -1, -1), -1, (-1, -1)⟩

structure Geo where
  nodeY : Int → ℚ
  nodeX : Int → ℚ
  edgeLength : GEdge → ℚ
  gcvec : ℚ → ℚ → ℚ → ℚ → ℚ

/-- The intersection-proximity ratio of one sample (lines 411-419): the
great-circle distance from the sample's point to the nearer of the
edge's two endpoint nodes, divided by the edge's length. -/
def ratioOf (g : Geo) (s : Sample) : ℚ :=
  let d0 := g.gcvec (g.nodeY s.edge.1) (g.nodeX s.edge.1) s.point.1 s.point.2
  let d1 := g.gcvec (g.nodeY s.edge.2.1) (g.nodeX s.edge.2.1) s.point.1 s.point.2
  min d0 d1 / g.edgeLength s.edge

/-- Python's max over a list (0 on the empty list, never hit by the
source: a flushed streak is nonempty). -/
def maxList : List ℚ → ℚ
  | [] => 0
  | a :: rest => rest.foldl max a

/-- Flushing one finished streak (lines 402-422): length at least
MIN_STREAK = 3 accepts outright; otherwise the streak is kept only when
the maximum intersection-proximity ratio over its samples exceeds 0.2. -/
def flushStreak (g : Geo) (streak : List Sample) : List Sample :=
  if 3 ≤ streak.length then streak
  else if maxList (streak.map (ratioOf g)) > 0.2 then streak else []

/-- The streak loop (lines 394-427): walk the samples, flushing the
accumulated streak whenever the edge changes; the trailing accumulator
(holding only the sentinel at the end) is discarded when input ends. -/
def streakGo (g : Geo) : Option Sample → List Sample → List Sample → List Sample
  | _, _, [] => []
  | some pe, streak, e :: rest =>
    if pe.edge ≠ e.edge then
      flushStreak g streak ++ streakGo g (some e) [e] rest
    else
      streakGo g (some e) (streak ++ [e]) rest
  | none, streak, e :: rest => streakGo g (some e) (streak ++ [e]) rest

/-- The accepted samples (es3) of match_graph2: run the streak loop over
the distance-filtered samples followed by the sentinel. -/
def match2streaks (g : Geo) (es2 : List Sample) : List Sample :=
  streakGo g none [] (es2 ++ [sentinelSample])

/-- The maximal runs of consecutive samples sharing one edge. -/
def chunks : List Sample → List (List Sample)
  | [] => []
  | [e] => [[e]]
  | e :: f :: rest =>
    match chunks (f :: rest) with
    | [] => [[e]]
    | run :: runs =>
      if e.edge = f.edge then (e :: run) :: runs else [e] :: run :: runs

/-! ## Track construction (gpstrack.py, from_gpx, lines 47-79)

Each <trkpt> block may or may not contain a parseable coordinate pair
and a <time> element. The source builds one point per block and one
timestamp per block by list comprehensions over the same block list; a
block with no coordinate match triggers the breakpoint/AttributeError
path and a block with no or unparseable <time> raises, so a track is
only constructed when every block yields both. Both failures are
modelled as `none`. -/

structure TrkPt where
  point : Option (ℚ × ℚ)
  timeStr : Option String

def optMap (f : α → Option β) : List α → Option (List β)
  | [] => some []
  | a :: l =>
    match f a, optMap f l with
    | some b, some bs => some (b :: bs)
    | _, _ => none

def from_gpx_core (parseTime : String → Option ℚ) (tps : List TrkPt) :
    Option (List (ℚ × ℚ) × List ℚ) :=
  match optMap (fun t => t.point) tps, optMap (fun t => t.timeStr.bind parseTime) tps with
  | some ps, some ts => some (ps, ts)
  | _, _ => none

/-! ## Concrete geometries and samples used in witnesses and counterexamples -/

/-- A geometry in which node 1 sits at x = 0 and every other node at
x = 100, the distance from a node to a point is the point's second
coordinate when the node is at x = 0 and 100 otherwise, and every edge
is 10 units long. -/
def cexGeo : Geo :=
  ⟨fun _ => 0, fun n => if n = 1 then 0 else 100, fun _ => 10,
   fun _ x _ px => if x = 0 then px else 100⟩

/-- A sample on edge (1,2,0) close to node 1: proximity ratio 1/10. -/
def cexSampleA : Sample := ⟨(1, 2, 0), 0, (0, 1)⟩

/-- A sample on edge (1,2,0) farther from both nodes: proximity ratio 1/2. -/
def cexSampleB : Sample := ⟨(1, 2, 0), 0, (0, 5)⟩

/-- A trivial geometry: every proximity ratio is 0. -/
def triGeo : Geo := ⟨fun _ => 0, fun _ => 0, fun _ => 1, fun _ _ _ _ => 0⟩

/-- A sample on edge (1,2,0) at the origin. -/
def triSample : Sample := ⟨(1, 2, 0), 0, (0, 0)⟩

/-! ## Theorems -/

lemma catMap_append (f : α → List β) (l1 l2 : List α) :
    catMap f (l1 ++ l2) = catMap f l1 ++ catMap f l2 := by
  induction l1 with
  | nil => simp [catMap]
  | cons a l ih => simp [catMap, ih]

lemma optMap_some_length (f : α → Option β) :
    ∀ (l : List α) (ys : List β), optMap f l = some ys → ys.length = l.length := by
  intro l
  induction l with
  | nil =>
    intro ys h
    simp [optMap] at h
    subst h
    rfl
  | cons a l ih =>
    intro ys h
    simp only [optMap] at h
    cases hfa : f a with
    | none => rw [hfa] at h; simp at h
    | some b =>
      cases hrest : optMap f l with
      | none => rw [hfa, hrest] at h; simp at h
      | some bs =>
        rw [hfa, hrest] at h
        simp only [Option.some.injEq] at h
        subst h
        simp [ih bs hrest]

/-- Claim C2: for every input string the cache-key function `my_hash` equals
the spec's reference rolling hash (accumulator 0, then for each character c
accumulator := (accumulator*281 XOR ord(c)*997) mod 2^32, rendered in
decimal), and byte-identical inputs yield identical keys (determinism). -/
theorem my_hash_eq_spec_hash :
    (∀ text : String, my_hash text = spec_rolling_hash text) ∧
    (∀ s t : String, s = t → my_hash s = my_hash t) := by
  constructor
  · intro text
    unfold my_hash spec_rolling_hash
    have hf : (fun h ch => ((h * 281) ^^^ (Char.toNat ch * 997)) &&& 0xffffffff) =
        (fun h ch => ((h * 281) ^^^ (Char.toNat ch * 997)) % 2 ^ 32) := by
      funext h ch
      exact Nat.and_pow_two_sub_one_eq_mod (h * 281 ^^^ ch.toNat * 997) 32
    rw [hf]
  · intro s t hst
    rw [hst]

/-- Witness for C2: its determinism conjunct applied at the concrete
input "abc", with the equality hypothesis discharged by rfl. -/
theorem my_hash_eq_spec_hash_witness :
    my_hash "abc" = spec_rolling_hash "abc" ∧ my_hash "abc" = my_hash "abc" :=
  ⟨my_hash_eq_spec_hash.1 "abc", my_hash_eq_spec_hash.2 "abc" "abc" rfl⟩

/-- Claim C7: on a cache miss, a non-200 response status makes match_graph
return the failure value (no response text, so the caller gets None), the
track name and response body are reported as diagnostics, and the cache is
left unchanged: the failed response is not stored. The embedded function
consumes exactly one response, so no retry happens. -/
theorem fetch_non200_fails (name : String) (cache : List (String × String))
    (key : String) (status : Nat) (body : String)
    (hmiss : cache.lookup key = none) (hstat : status ≠ 200) :
    matchGraphFetch name cache key status body = ⟨none, cache, some (name, body)⟩ := by
  unfold matchGraphFetch
  rw [hmiss]
  simp [hstat]

/-- Witness for C7: a miss in the empty cache with status 500. -/
theorem fetch_non200_fails_witness :
    ([] : List (String × String)).lookup "k" = none ∧ (500 : Nat) ≠ 200 ∧
    matchGraphFetch "t" [] "k" 500 "err" = ⟨none, [], some ("t", "err")⟩ :=
  ⟨rfl, by decide, fetch_non200_fails "t" [] "k" 500 "err" rfl (by decide)⟩

/-- Claim C4 (failing input): the source checks only for zero candidates
(line 190) before reading row 1 of the distance-sorted frame (line 202),
so a way reference with exactly one candidate edge raises IndexError
instead of emitting that edge; a point with zero candidates is dropped
without error, as the claim says. -/
theorem resolver_single_candidate_errors :
    (∀ (e : GEdge) (d : ℚ), resolvePoint [(e, d)] =
      .error "IndexError: single positional indexer is out-of-bounds") ∧
    resolvePoint [] = .ok [] :=
  ⟨fun _ _ => rfl, rfl⟩

/-- Claim C10: when the response has no point classified "matched", the
match-rate print divides by len(matched_points) = 0, so match_graph raises
ZeroDivisionError rather than returning an empty edge list. -/
theorem resolve_no_matched_points_div_zero (numEdges : Nat) (wayOf : Nat → Nat)
    (cands : Nat → ℚ → ℚ → List (GEdge × ℚ)) (resPoints : List RespPoint)
    (h : resPoints.filter (fun p => p.ptype = "matched") = []) :
    matchGraphResolve numEdges wayOf cands resPoints =
      .error "ZeroDivisionError: division by zero" := by
  unfold matchGraphResolve
  rw [h]
  rfl

/-- Witness for C10: one response point classified "unmatched". -/
theorem resolve_no_matched_points_div_zero_witness :
    matchGraphResolve 0 (fun _ => 0) (fun _ _ _ => []) [⟨"unmatched", 0, 0, 0⟩] =
      .error "ZeroDivisionError: division by zero" :=
  resolve_no_matched_points_div_zero 0 (fun _ => 0) (fun _ _ _ => [])
    [⟨"unmatched", 0, 0, 0⟩] rfl

/-- Claim C9: whenever from_gpx constructs a track (every trkpt block
yields a coordinate pair and a parseable timestamp), the points sequence
and the timestamps sequence have the same length. -/
theorem from_gpx_lengths_eq (parseTime : String → Option ℚ) (tps : List TrkPt)
    (ps : List (ℚ × ℚ)) (ts : List ℚ)
    (h : from_gpx_core parseTime tps = some (ps, ts)) :
    ps.length = ts.length := by
  unfold from_gpx_core at h
  cases hp : optMap (fun t : TrkPt => t.point) tps with
  | none => rw [hp] at h; simp at h
  | some ps0 =>
    cases ht : optMap (fun t : TrkPt => t.timeStr.bind parseTime) tps with
    | none => rw [hp, ht] at h; simp at h
    | some ts0 =>
      rw [hp, ht] at h
      simp only [Option.some.injEq, Prod.mk.injEq] at h
      rw [← h.1, ← h.2]
      rw [optMap_some_length _ tps ps0 hp, optMap_some_length _ tps ts0 ht]

/-- Witness for C9: a single trkpt block with both fields present. -/
theorem from_gpx_lengths_eq_witness :
    [((1 : ℚ), (2 : ℚ))].length = [(0 : ℚ)].length :=
  from_gpx_lengths_eq (fun _ => some 0) [⟨some (1, 2), some "t"⟩] [(1, 2)] [0] rfl

/-- Claim C3: with at least two candidate edges for a matched point's way,
the resolver emits both of the two closest candidates exactly when their
distances are equal, and only the single closest one when the two smallest
distances differ. The last two conjuncts state that the first two entries
of the sorted candidate list really carry the two smallest distances. -/
theorem resolver_two_candidates (cands : List (GEdge × ℚ)) (c0 c1 : GEdge × ℚ)
    (rest : List (GEdge × ℚ))
    (hs : List.insertionSort distLe cands = c0 :: c1 :: rest) :
    (c1.2 = c0.2 → resolvePoint cands = .ok [c0.1, c1.1]) ∧
    (c1.2 ≠ c0.2 → resolvePoint cands = .ok [c0.1]) ∧
    (∀ c ∈ cands, c0.2 ≤ c.2) ∧
    (∀ c ∈ rest, c1.2 ≤ c.2) := by
  have hsorted := List.sorted_insertionSort distLe cands
  rw [hs, List.sorted_cons, List.sorted_cons] at hsorted
  refine ⟨?_, ?_, ?_, ?_⟩
  · intro he
    unfold resolvePoint
    rw [hs]
    simp [he]
  · intro he
    unfold resolvePoint
    rw [hs]
    simp [he]
  · intro c hc
    have hmem : c ∈ List.insertionSort distLe cands :=
      (List.mem_insertionSort distLe).mpr hc
    rw [hs, List.mem_cons, List.mem_cons] at hmem
    rcases hmem with h0 | h1 | h2
    · exact le_of_eq (congrArg Prod.snd h0.symm)
    · exact hsorted.1 c (by simp [h1])
    · exact hsorted.1 c (by simp [h2])
  · intro c hc
    exact hsorted.2.1 c hc

/-- Witness for C3: three candidates, the two closest at equal distance 1;
both are emitted. -/
theorem resolver_two_candidates_witness :
    resolvePoint [((3, 3, 0), (2 : ℚ)), ((1, 2, 0), 1), ((2, 1, 0), 1)] =
      .ok [(1, 2, 0), (2, 1, 0)] :=
  (resolver_two_candidates [((3, 3, 0), (2 : ℚ)), ((1, 2, 0), 1), ((2, 1, 0), 1)]
    ((1, 2, 0), 1) ((2, 1, 0), 1) [((3, 3, 0), 2)] (by decide)).1 rfl

/-- Claim C1: at a gap between two consecutive deduplicated undirected
edges where the shortest-path search returns candidate paths from the
remembered position to both endpoints of the next edge, the shorter
candidate's edges are appended to the filler output exactly when its
summed length is strictly below the length threshold and its node count
strictly below the node-count threshold (defaults 30 and 6); if either
bound fails, no filler edges are produced for the gap and the remembered
position is reset to the unknown sentinel -1. -/
theorem fill_gap_accept_iff (sp : Int → Int → Option (List Int))
    (eLen : Int → Int → ℚ) (thL : ℚ) (thN : Nat) (st : FillState)
    (uc vc un vn : Int) (upath vpath : List Int)
    (hnu : ¬(un = uc ∨ un = vc)) (hnv : ¬(vn = uc ∨ vn = vc))
    (hu : sp st.nextNode un = some upath) (hv : sp st.nextNode vn = some vpath) :
    (selLen eLen upath vpath < thL ∧ (selPath eLen upath vpath).length < thN →
      fillStep sp eLen thL thN st ((uc, vc), (un, vn)) =
        ⟨selNext eLen upath vpath un vn,
         st.fillers ++ pathEdges (selPath eLen upath vpath),
         st.lengths ++ (pathEdges (selPath eLen upath vpath)).map
           (fun _ => selLen eLen upath vpath)⟩) ∧
    (¬(selLen eLen upath vpath < thL ∧ (selPath eLen upath vpath).length < thN) →
      fillStep sp eLen thL thN st ((uc, vc), (un, vn)) =
        ⟨-1, st.fillers, st.lengths⟩) := by
  constructor
  · intro hacc
    unfold fillStep
    simp only
    rw [if_neg hnu, if_neg hnv, hu, hv]
    simp [hacc]
  · intro hrej
    unfold fillStep
    simp only
    rw [if_neg hnu, if_neg hnv, hu, hv]
    simp [hrej]

/-- Witness for C1: a gap from position 0 to edge (10, 20); the path to 10
is 15 units over 2 nodes and is accepted at the default thresholds 30/6. -/
theorem fill_gap_accept_iff_witness :
    fillStep (fun _ t => some [0, t]) (fun _ v => if v = 10 then 15 else 50) 30 6
      ⟨0, [], []⟩ ((100, 101), (10, 20)) = ⟨20, [(0, 10)], [15]⟩ := by
  have h := (fill_gap_accept_iff (fun _ t => some [0, t])
    (fun _ v => if v = 10 then 15 else 50) 30 6 ⟨0, [], []⟩ 100 101 10 20
    [0, 10] [0, 20] (by decide) (by decide) rfl rfl).1
    (by norm_num [selLen, selPath, pathLength, pathEdges])
  rw [h]
  norm_num [selLen, selPath, selNext, pathLength, pathEdges]

/-- Counterexample to claim C8 as stated: for the connected consecutive
pair (1,2), (2,3) the shared endpoint is 2, but the code stores 3 (the
other endpoint of the next edge) as the remembered position; no filler is
emitted. -/
theorem fill_connected_cex :
    (fillStep (fun _ _ => none) (fun _ _ => 0) 30 6 ⟨5, [], []⟩
        ((1, 2), (2, 3))).nextNode = 3 ∧
    (fillStep (fun _ _ => none) (fun _ _ => 0) 30 6 ⟨5, [], []⟩
        ((1, 2), (2, 3))).nextNode ≠ 2 ∧
    (fillStep (fun _ _ => none) (fun _ _ => 0) 30 6 ⟨5, [], []⟩
        ((1, 2), (2, 3))).fillers = [] := by
  refine ⟨rfl, by decide, rfl⟩

/-- Claim C8 amended: when two consecutive deduplicated undirected edges
share an endpoint, no filler is emitted for that pair and the remembered
position becomes the endpoint of the next edge *opposite* the shared one:
v_next when u_next is shared (checked first), else u_next when v_next is
shared. -/
theorem fill_connected_amended (sp : Int → Int → Option (List Int))
    (eLen : Int → Int → ℚ) (thL : ℚ) (thN : Nat) (st : FillState)
    (uc vc un vn : Int) :
    (un = uc ∨ un = vc →
      fillStep sp eLen thL thN st ((uc, vc), (un, vn)) = ⟨vn, st.fillers, st.lengths⟩) ∧
    (¬(un = uc ∨ un = vc) → (vn = uc ∨ vn = vc) →
      fillStep sp eLen thL thN st ((uc, vc), (un, vn)) = ⟨un, st.fillers, st.lengths⟩) := by
  constructor
  · intro h
    unfold fillStep
    simp only
    rw [if_pos h]
  · intro h1 h2
    unfold fillStep
    simp only
    rw [if_neg h1, if_pos h2]

/-- Witness for C8 (amended): the pair (1,2), (2,3) shares endpoint 2 and
the remembered position becomes 3 with no filler emitted. -/
theorem fill_connected_amended_witness :
    fillStep (fun _ _ => none) (fun _ _ => 0) 30 6 ⟨5, [], []⟩ ((1, 2), (2, 3)) =
      ⟨3, [], []⟩ :=
  (fill_connected_amended (fun _ _ => none) (fun _ _ => 0) 30 6 ⟨5, [], []⟩
    1 2 2 3).1 (by decide)

lemma chunks_cons (e : Sample) (rest : List Sample) :
    chunks (e :: rest) =
      (e :: rest.takeWhile (fun s => decide (s.edge = e.edge))) ::
      chunks (rest.dropWhile (fun s => decide (s.edge = e.edge))) := by
  induction rest generalizing e with
  | nil => simp [chunks]
  | cons f rest2 ih =>
    by_cases h : e.edge = f.edge
    · have hp : (fun s : Sample => decide (s.edge = e.edge)) =
          (fun s : Sample => decide (s.edge = f.edge)) := by
        funext s
        rw [h]
      have hfe : f.edge = e.edge := h.symm
      rw [chunks, ih f]
      dsimp only
      rw [if_pos h]
      rw [List.takeWhile_cons, List.dropWhile_cons]
      rw [hp]
      simp [hfe]
    · have hfe : ¬ f.edge = e.edge := fun hc => h hc.symm
      rw [chunks, ih f]
      dsimp only
      rw [if_neg h]
      rw [List.takeWhile_cons, List.dropWhile_cons]
      simp [hfe, ← ih f]

lemma streakGo_aux (g : Geo) (rest : List Sample) :
    ∀ (p : Sample) (acc : List Sample),
      p.edge ≠ sentinelSample.edge →
      (∀ s ∈ rest, s.edge ≠ sentinelSample.edge) →
      streakGo g (some p) acc (rest ++ [sentinelSample]) =
        flushStreak g (acc ++ rest.takeWhile (fun s => decide (s.edge = p.edge))) ++
        catMap (flushStreak g)
          (chunks (rest.dropWhile (fun s => decide (s.edge = p.edge)))) := by
  induction rest with
  | nil =>
    intro p acc hp _
    rw [List.nil_append, streakGo, if_pos hp]
    simp [streakGo, chunks, catMap]
  | cons f rest2 ih =>
    intro p acc hp hrest
    have hf : f.edge ≠ sentinelSample.edge := hrest f (by simp)
    have hrest2 : ∀ s ∈ rest2, s.edge ≠ sentinelSample.edge := by
      intro s hs
      exact hrest s (by simp [hs])
    by_cases h : f.edge = p.edge
    · have hne : ¬ p.edge ≠ f.edge := by simp [h.symm]
      have hp2 : (fun s : Sample => decide (s.edge = p.edge)) =
          (fun s : Sample => decide (s.edge = f.edge)) := by
        funext s
        rw [h]
      rw [List.cons_append, streakGo, if_neg hne]
      rw [ih f (acc ++ [f]) hf hrest2]
      rw [List.takeWhile_cons, List.dropWhile_cons]
      rw [hp2]
      simp [h]
    · have hne : p.edge ≠ f.edge := fun hc => h hc.symm
      rw [List.cons_append, streakGo, if_pos hne]
      rw [ih f [f] hf hrest2]
      have hpf : decide (f.edge = p.edge) = false := by simp [h]
      simp only [List.takeWhile_cons, List.dropWhile_cons, hpf, Bool.false_eq_true,
        if_false]
      rw [chunks_cons f rest2]
      simp [catMap]

/-- The streak loop equals flushing each maximal run of consecutive
samples sharing one edge, provided no sample carries the sentinel edge
(-1,-1,-1) (true of every real nearest-edge result). -/
lemma match2_eq_chunks (g : Geo) (es : List Sample)
    (h : ∀ s ∈ es, s.edge ≠ sentinelSample.edge) :
    match2streaks g es = catMap (flushStreak g) (chunks es) := by
  cases es with
  | nil => simp [match2streaks, streakGo, chunks, catMap]
  | cons e rest =>
    have he : e.edge ≠ sentinelSample.edge := h e (by simp)
    have hrest : ∀ s ∈ rest, s.edge ≠ sentinelSample.edge := by
      intro s hs
      exact h s (by simp [hs])
    unfold match2streaks
    rw [List.cons_append, streakGo, List.nil_append]
    rw [streakGo_aux g rest e [e] he hrest]
    rw [chunks_cons e rest]
    simp [catMap]

/-- Claim C5: every maximal run of at least MIN_STREAK = 3 consecutive
samples sharing one nearest edge is accepted into the streak matcher's
output unchanged, for every geometry (so regardless of the samples'
proximity-to-intersection ratios). The sentinel hypothesis says no real
sample sits on the loop's sentinel edge (-1,-1,-1). -/
theorem streak_long_accepted (g : Geo) (es : List Sample)
    (pre : List (List Sample)) (run : List Sample) (post : List (List Sample))
    (hsent : ∀ s ∈ es, s.edge ≠ sentinelSample.edge)
    (hchunk : chunks es = pre ++ run :: post)
    (hlen : 3 ≤ run.length) :
    match2streaks g es =
      catMap (flushStreak g) pre ++ run ++ catMap (flushStreak g) post := by
  rw [match2_eq_chunks g es hsent, hchunk, catMap_append]
  have hrun : flushStreak g run = run := by
    unfold flushStreak
    rw [if_pos hlen]
  simp [catMap, hrun, List.append_assoc]

/-- Witness for C5: three identical samples form one maximal run of
length 3 and are accepted under the trivial geometry (all ratios 0). -/
theorem streak_long_accepted_witness :
    match2streaks triGeo [triSample, triSample, triSample] =
      catMap (flushStreak triGeo) [] ++ [triSample, triSample, triSample] ++
      catMap (flushStreak triGeo) [] :=
  streak_long_accepted triGeo [triSample, triSample, triSample] []
    [triSample, triSample, triSample] [] (by decide) (by decide) (by decide)

/-- Counterexample to claim C6 as stated: the two-sample streak
[cexSampleA, cexSampleB] has ratios 1/10 and 1/2, so NOT every sample's
ratio exceeds 0.2 — per the claim the streak should be dropped — yet the
code accepts it, because it tests max(l) > 0.2: one qualifying sample
suffices. -/
theorem streak_short_cex :
    match2streaks cexGeo [cexSampleA, cexSampleB] = [cexSampleA, cexSampleB] ∧
    ¬ (∀ s ∈ [cexSampleA, cexSampleB], ratioOf cexGeo s > 0.2) := by
  constructor
  · rw [match2_eq_chunks cexGeo _ (by decide)]
    rw [show chunks [cexSampleA, cexSampleB] = [[cexSampleA, cexSampleB]] from by decide]
    simp only [catMap, List.append_nil, flushStreak, maxList, List.map_cons,
      List.map_nil, List.length_cons, List.length_nil]
    rw [if_neg (by norm_num)]
    rw [if_pos (by norm_num [ratioOf, cexGeo, cexSampleA, cexSampleB, min_def, max_def])]
  · intro hall
    have hA := hall cexSampleA (by simp)
    rw [ratioOf] at hA
    norm_num [cexGeo, cexSampleA, min_def] at hA

/-- Claim C6 amended: a streak of fewer than 3 samples is accepted
exactly when the MAXIMUM proximity ratio over its samples exceeds 0.2 —
that is, when at least one sample's ratio exceeds 0.2 — not when every
sample's ratio does; otherwise the streak is dropped. -/
theorem streak_short_accept_iff (g : Geo) (es : List Sample)
    (pre : List (List Sample)) (run : List Sample) (post : List (List Sample))
    (hsent : ∀ s ∈ es, s.edge ≠ sentinelSample.edge)
    (hchunk : chunks es = pre ++ run :: post)
    (hlen : run.length < 3) :
    match2streaks g es =
      catMap (flushStreak g) pre ++
      (if maxList (run.map (ratioOf g)) > 0.2 then run else []) ++
      catMap (flushStreak g) post := by
  rw [match2_eq_chunks g es hsent, hchunk, catMap_append]
  have hrun : flushStreak g run =
      if maxList (run.map (ratioOf g)) > 0.2 then run else [] := by
    unfold flushStreak
    rw [if_neg (by omega)]
  simp [catMap, hrun, List.append_assoc]

/-- Witness for C6 (amended): the two-sample streak of the
counterexample, accepted through its maximum ratio 1/2. -/
theorem streak_short_accept_iff_witness :
    match2streaks cexGeo [cexSampleA, cexSampleB] =
      catMap (flushStreak cexGeo) [] ++
      (if maxList ([cexSampleA, cexSampleB].map (ratioOf cexGeo)) > 0.2
       then [cexSampleA, cexSampleB] else []) ++
      catMap (flushStreak cexGeo) [] :=
  streak_short_accept_iff cexGeo [cexSampleA, cexSampleB] []
    [cexSampleA, cexSampleB] [] (by decide) (by decide) (by decide)

end EgSpeedrun
